import Mathlib

/-!
Shallow embedding of the metaboost payment-metadata storage layer.

The source of truth is `src/lib/storage.ts` (class `PaymentMetadataStorage`,
backed by Redis string keys for records and Redis sets for the RSS index),
`src/lib/types.ts` (the record shapes), the HTTP handlers for
create/update (`handlePost`/`handlePut`), the read handlers
(GET by id, `findByRSSItem`, the paginated list handler).

Redis is modelled as explicit state: the string keyspace is an association
list from full key strings to stored records (Redis `SET` overwrites, `GET`
fetches, `DEL` removes, `KEYS payment:*` enumerates), and the set keyspace
is an association list from full index-key strings to member lists acting as
sets (`SADD` deduplicates, `SREM` removes, `SMEMBERS` lists).  A record value
stands for its `JSON.stringify` serialization; `JSON.parse` of it returns an
equal value, so `set`/`get` move record values directly.
-/

set_option autoImplicit false

namespace MetaBoost

/-- Payment type enumeration from `src/lib/types.ts` (`PaymentType`):
"bitcoin-lightning" or "monero". -/
inductive PaymentType where
  | bitcoinLightning
  | monero
deriving DecidableEq, Repr

mutual

/-- A JSON-compatible value, as stored in the open-ended `metadata` object of
`SimplePaymentMetadata` (arbitrary JSON: null, booleans, numbers, strings,
arrays, objects). -/
inductive Json where
  | null
  | bool (b : Bool)
  | num (n : Int)
  | str (s : String)
  | arr (elems : JsonArray)
  | obj (fields : JsonObject)
deriving DecidableEq, Repr

/-- A JSON array: a list of JSON values. -/
inductive JsonArray where
  | nil
  | cons (hd : Json) (tl : JsonArray)
deriving DecidableEq, Repr

/-- A JSON object: an ordered mapping from string keys to JSON values. -/
inductive JsonObject where
  | nil
  | cons (key : String) (val : Json) (tl : JsonObject)
deriving DecidableEq, Repr

end

/-- `StoredPaymentMetadata` from `src/lib/types.ts`: the full persisted
record, including the private `updateToken`.  Optional fields of the
TypeScript interface become `Option`; the open-ended `metadata` object is a
list of string-keyed JSON values. -/
structure StoredPaymentMetadata where
  id : String
  type : PaymentType
  metadata : JsonObject
  signature : Option String
  podcastGuid : Option String
  rssItemGuid : Option String
  updateToken : String
deriving DecidableEq, Repr

/-! ### Association-list primitives modelling the Redis keyspaces -/

/-- Redis `GET`/`HGET`-style lookup in an association list: first binding of
the key, if any. -/
def listGet {α : Type} (l : List (String × α)) (k : String) : Option α :=
  match l with
  | [] => none
  | (k2, v) :: rest => if k2 = k then some v else listGet rest k

/-- Redis `SET`-style write: overwrite the binding of `k` in place if
present, append it otherwise. -/
def listSet {α : Type} (l : List (String × α)) (k : String) (v : α) :
    List (String × α) :=
  match l with
  | [] => [(k, v)]
  | (k2, v2) :: rest =>
      if k2 = k then (k, v) :: rest else (k2, v2) :: listSet rest k v

/-- Redis `DEL`-style removal: drop every binding of `k`. -/
def listDel {α : Type} (l : List (String × α)) (k : String) :
    List (String × α) :=
  l.filter (fun p => p.1 ≠ k)

/-- The Redis state seen by `PaymentMetadataStorage`: the `payment:*` string
keyspace and the `rss-index:*` set keyspace. -/
structure RedisState where
  payments : List (String × StoredPaymentMetadata)
  index : List (String × List String)
deriving DecidableEq, Repr

/-- An empty Redis database. -/
def RedisState.empty : RedisState := ⟨[], []⟩

/-- `getPaymentKey` from `src/lib/storage.ts`: primary key
`payment:` followed by the id. -/
def getPaymentKey (id : String) : String := "payment:" ++ id

/-- `getRSSIndexKey` from `src/lib/storage.ts`: index key
`rss-index:` followed by podcastGuid, a colon, and rssItemGuid. -/
def getRSSIndexKey (podcastGuid rssItemGuid : String) : String :=
  "rss-index:" ++ podcastGuid ++ ":" ++ rssItemGuid

/-- Redis `SMEMBERS`: members of the set at key `k` (empty when absent). -/
def sMembers (idx : List (String × List String)) (k : String) : List String :=
  (listGet idx k).getD []

/-- Redis `SADD`: add `x` to the set at `k`; adding an existing member is a
no-op on the set. -/
def sAdd (idx : List (String × List String)) (k x : String) :
    List (String × List String) :=
  let cur := sMembers idx k
  listSet idx k (if x ∈ cur then cur else cur ++ [x])

/-- Redis `SREM`: remove `x` from the set at `k`; removing a non-member is a
no-op. -/
def sRem (idx : List (String × List String)) (k x : String) :
    List (String × List String) :=
  listSet idx k ((sMembers idx k).filter (fun y => y ≠ x))

/-- The JavaScript truthiness test `metadata.podcastGuid &&
metadata.rssItemGuid` guarding index registration in `create` and index
removal in `delete`: both fields present and non-empty.  Returns the index
key when the guard passes. -/
def indexKeyOf (m : StoredPaymentMetadata) : Option String :=
  match m.podcastGuid, m.rssItemGuid with
  | some p, some g =>
      if p.isEmpty || g.isEmpty then none else some (getRSSIndexKey p g)
  | _, _ => none

/-! ### Storage operations (`src/lib/storage.ts`) -/

/-- `create` (storage.ts lines 43-55): store the record under its payment
key, then, if both RSS fields are truthy, add its id to the RSS index set. -/
def create (st : RedisState) (m : StoredPaymentMetadata) : RedisState :=
  let st1 : RedisState :=
    { st with payments := listSet st.payments (getPaymentKey m.id) m }
  match indexKeyOf m with
  | some ik => { st1 with index := sAdd st1.index ik m.id }
  | none => st1

/-- `findById` (storage.ts lines 60-70): `GET` of the payment key, `null`
when absent. -/
def findById (st : RedisState) (id : String) : Option StoredPaymentMetadata :=
  listGet st.payments (getPaymentKey id)

/-- `findByRSSItem` (storage.ts lines 75-96): `SMEMBERS` of the index key,
then `findById` on each id, silently dropping ids whose record is missing. -/
def findByRSSItem (st : RedisState) (podcastGuid rssItemGuid : String) :
    List StoredPaymentMetadata :=
  (sMembers st.index (getRSSIndexKey podcastGuid rssItemGuid)).filterMap
    (findById st)

/-- `update` (storage.ts lines 101-114): fails when no record exists for the
id; otherwise overwrites the stored record verbatim.  The RSS index is not
touched. -/
def update (st : RedisState) (m : StoredPaymentMetadata) :
    RedisState × Bool :=
  match findById st m.id with
  | none => (st, false)
  | some _ =>
      ({ st with payments := listSet st.payments (getPaymentKey m.id) m },
       true)

/-- `delete` (storage.ts lines 119-137): fails when no record exists;
otherwise deletes the payment key, then, if the stored record's RSS fields
are truthy, removes the id from the RSS index set. -/
def delete (st : RedisState) (id : String) : RedisState × Bool :=
  match findById st id with
  | none => (st, false)
  | some m =>
      let st1 : RedisState :=
        { st with payments := listDel st.payments (getPaymentKey id) }
      match indexKeyOf m with
      | some ik => ({ st1 with index := sRem st1.index ik id }, true)
      | none => (st1, true)

/-- `findAll` (storage.ts lines 142-165): enumerate `payment:*` keys, slice
`[offset, offset+limit)`, and fetch each key, dropping missing values. -/
def findAll (st : RedisState) (limit : Nat) (offset : Nat) :
    List StoredPaymentMetadata :=
  let keys := st.payments.map Prod.fst
  let paginatedKeys := (keys.drop offset).take limit
  paginatedKeys.filterMap (listGet st.payments)

/-- `getTotalCount` (storage.ts lines 170-174): the number of `payment:*`
keys. -/
def getTotalCount (st : RedisState) : Nat :=
  (st.payments.map Prod.fst).length

/-- `validateUpdateToken` (storage.ts lines 179-182): true iff the record
exists and its stored `updateToken` equals the supplied one. -/
def validateUpdateToken (st : RedisState) (id updateToken : String) : Bool :=
  match findById st id with
  | some m => m.updateToken == updateToken
  | none => false

/-! ### HTTP handler cores

The handlers validate request shape before touching the store; the
definitions below are the post-validation cores that interact with the
store.  The freshly minted identifiers (`uuidv4()` calls) are passed in as
explicit arguments.  The update path follows `PaymentMetadataUpdate` and
`PaymentMetadataResponse` from `src/lib/types.ts`; the create path follows
the `handlePost` actually present in the source (the pre-v0.2 generation),
which reads and persists a `jpt` payload and copies no `metadata` or
`signature` field from the body. -/

/-- The create request body as the in-src `handlePost` reads it: the
handler uses `body.jpt`, `body.type`, `body.podcastGuid` and
`body.rssItemGuid`, and `validatePaymentMetadataNew` in `src/lib/utils.ts`
requires `jpt`.  The optional `metadata` and `signature` keys model the
extra JSON fields of the v0.2 `PaymentMetadataNew` interface in
`src/lib/types.ts`, which a client may send but the handler never reads.
The `jpt` payload (a string token or a decoded object) is carried as an
opaque JSON value. -/
structure CreateBody where
  jpt : Json
  type : PaymentType
  podcastGuid : Option String
  rssItemGuid : Option String
  metadata : Option JsonObject
  signature : Option String
deriving DecidableEq, Repr

/-- The object persisted by the in-src `handlePost`: the literal
`{ id, jpt, type, updateToken, podcastGuid, rssItemGuid }`.  A field of
this structure is the value stored under the corresponding JSON key, with
`none` meaning the key is absent; the handler writes no `metadata` or
`signature` key, so those fields of a record it stores are `none`. -/
structure StoredPaymentJPT where
  id : String
  jpt : Json
  type : PaymentType
  updateToken : String
  podcastGuid : Option String
  rssItemGuid : Option String
  metadata : Option JsonObject
  signature : Option String
deriving DecidableEq, Repr

/-- The Redis state holding records of the shape the in-src `handlePost`
persists. -/
structure RedisStateJPT where
  payments : List (String × StoredPaymentJPT)
  index : List (String × List String)
deriving DecidableEq, Repr

/-- An empty Redis database for the jpt-generation records. -/
def RedisStateJPT.empty : RedisStateJPT := ⟨[], []⟩

/-- The truthiness guard of `create` (storage.ts lines 51-54) at the
jpt-generation record shape. -/
def indexKeyOfJPT (m : StoredPaymentJPT) : Option String :=
  match m.podcastGuid, m.rssItemGuid with
  | some p, some g =>
      if p.isEmpty || g.isEmpty then none else some (getRSSIndexKey p g)
  | _, _ => none

/-- `create` (storage.ts lines 43-55) at the jpt-generation record shape:
the storage layer stringifies whatever record object it receives, so the
code path is identical. -/
def createJPT (st : RedisStateJPT) (m : StoredPaymentJPT) : RedisStateJPT :=
  let st1 : RedisStateJPT :=
    { st with payments := listSet st.payments (getPaymentKey m.id) m }
  match indexKeyOfJPT m with
  | some ik => { st1 with index := sAdd st1.index ik m.id }
  | none => st1

/-- `findById` (storage.ts lines 60-70) at the jpt-generation record
shape. -/
def findByIdJPT (st : RedisStateJPT) (id : String) :
    Option StoredPaymentJPT :=
  listGet st.payments (getPaymentKey id)

/-- `PaymentMetadataUpdate` from `src/lib/types.ts`: the update request
body. -/
structure PaymentMetadataUpdate where
  id : String
  updateToken : String
  type : PaymentType
  metadata : JsonObject
  signature : Option String
deriving DecidableEq, Repr

/-- `PaymentMetadataResponse` from `src/lib/types.ts`: the body returned by
create and update. -/
structure PaymentMetadataResponse where
  id : String
  updateToken : String
deriving DecidableEq, Repr

/-- Core of the in-src `handlePost`: mint `id` and `updateToken` (passed in
here), assemble `{ id, jpt, type, updateToken, podcastGuid, rssItemGuid }`
from the body — copying no `metadata` or `signature` — call
`storage.create`, and answer `{ id, updateToken }`. -/
def handlePostCore (st : RedisStateJPT) (body : CreateBody)
    (id updateToken : String) : RedisStateJPT × PaymentMetadataResponse :=
  let m : StoredPaymentJPT :=
    { id := id
      jpt := body.jpt
      type := body.type
      updateToken := updateToken
      podcastGuid := body.podcastGuid
      rssItemGuid := body.rssItemGuid
      metadata := none
      signature := none }
  (createJPT st m, { id := id, updateToken := updateToken })

/-- Core of `handlePut`: look up the existing record (404 when absent),
check the query `updateToken` against the stored one (400 when wrong), mint
a fresh token (`newUpdateToken`, passed in here), build the replacement
record carrying over `podcastGuid`/`rssItemGuid` from the existing record,
call `storage.update`, and answer `{ id, newUpdateToken }`.  `none` models
the error responses, which leave the store untouched. -/
def handlePutCore (st : RedisState) (body : PaymentMetadataUpdate)
    (queryToken newUpdateToken : String) :
    RedisState × Option PaymentMetadataResponse :=
  match findById st body.id with
  | none => (st, none)
  | some existingMetadata =>
      if validateUpdateToken st body.id queryToken then
        let updatedMetadata : StoredPaymentMetadata :=
          { id := body.id
            type := body.type
            metadata := body.metadata
            signature := body.signature
            updateToken := newUpdateToken
            podcastGuid := existingMetadata.podcastGuid
            rssItemGuid := existingMetadata.rssItemGuid }
        ((update st updatedMetadata).1,
         some { id := body.id, updateToken := newUpdateToken })
      else (st, none)

/-! ### Read responses (the public, token-free shape) -/

/-- `PaymentMetadata` from `src/lib/types.ts`: the public read shape.  The
read handlers copy exactly the public fields of the stored record into the
response; `updateToken` is never copied. -/
structure PaymentMetadata where
  id : String
  type : PaymentType
  metadata : JsonObject
  signature : Option String
  podcastGuid : Option String
  rssItemGuid : Option String
deriving DecidableEq, Repr

/-- The field-by-field copy performed by the read handlers: every field of
the stored record except `updateToken`. -/
def toPublic (m : StoredPaymentMetadata) : PaymentMetadata :=
  { id := m.id
    type := m.type
    metadata := m.metadata
    signature := m.signature
    podcastGuid := m.podcastGuid
    rssItemGuid := m.rssItemGuid }

/-- Core of `handleGet` (GET by id): 404 (`none`) when absent, otherwise the
public fields of the record. -/
def getByIdResponse (st : RedisState) (id : String) :
    Option PaymentMetadata :=
  (findById st id).map toPublic

/-- Core of the `findByRSSItem` GET handler: 404 (`none`) when the result
set is empty, otherwise the public fields of each record. -/
def findByRSSItemResponse (st : RedisState) (podcastGuid rssItemGuid : String) :
    Option (List PaymentMetadata) :=
  let results := findByRSSItem st podcastGuid rssItemGuid
  if results.isEmpty then none else some (results.map toPublic)

/-- The paginated list response body: public records plus the pagination
block `{ limit, offset, total, hasMore }`. -/
structure ListResponse where
  data : List PaymentMetadata
  limit : Nat
  offset : Nat
  total : Nat
  hasMore : Bool
deriving DecidableEq, Repr

/-- Core of the list handler: `findAll` and `getTotalCount`, public fields
only, `hasMore` computed as `offset + limit < total`. -/
def listResponse (st : RedisState) (limit offset : Nat) : ListResponse :=
  let payments := findAll st limit offset
  let totalCount := getTotalCount st
  { data := payments.map toPublic
    limit := limit
    offset := offset
    total := totalCount
    hasMore := decide (offset + limit < totalCount) }

/-- Replace the stored `updateToken` of the record with the given id,
leaving every other field and every other record unchanged; the identity
when no such record exists.  Used to state that read responses are
independent of stored tokens. -/
def setStoredToken (st : RedisState) (id tok : String) : RedisState :=
  match listGet st.payments (getPaymentKey id) with
  | none => st
  | some m =>
      { st with
        payments :=
          listSet st.payments (getPaymentKey id) { m with updateToken := tok } }

/-! ### Backend-command traces for the two-step store+index sequences -/

/-- A write-relevant Redis command issued by the storage layer, in program
order. -/
inductive RedisCmd where
  | getCmd (key : String)
  | setCmd (key : String)
  | delCmd (key : String)
  | sAddCmd (key : String) (member : String)
  | sRemCmd (key : String) (member : String)
deriving DecidableEq, Repr

/-- The sequence of Redis commands issued by `create` (storage.ts lines
43-55): `SET` of the payment key, then `SADD` when the record is indexed. -/
def createTrace (m : StoredPaymentMetadata) : List RedisCmd :=
  [RedisCmd.setCmd (getPaymentKey m.id)] ++
    (match indexKeyOf m with
     | some ik => [RedisCmd.sAddCmd ik m.id]
     | none => [])

/-- The sequence of Redis commands issued by `delete` (storage.ts lines
119-137): `GET` via `findById`, then, when a record is found, `DEL` of the
payment key followed by `SREM` when the record is indexed. -/
def deleteTrace (st : RedisState) (id : String) : List RedisCmd :=
  [RedisCmd.getCmd (getPaymentKey id)] ++
    (match findById st id with
     | none => []
     | some m =>
         [RedisCmd.delCmd (getPaymentKey id)] ++
           (match indexKeyOf m with
            | some ik => [RedisCmd.sRemCmd ik id]
            | none => []))

/-- Does some command satisfying `p` occur strictly before some command
satisfying `q` in the trace? -/
def occursBefore (p q : RedisCmd → Bool) : List RedisCmd → Bool
  | [] => false
  | c :: rest => (p c && rest.any q) || occursBefore p q rest

/-- Is the command a primary-record write (`SET` of a payment key)? -/
def isPrimaryWrite (c : RedisCmd) : Bool :=
  match c with
  | RedisCmd.setCmd _ => true
  | _ => false

/-- Is the command an index registration (`SADD`)? -/
def isIndexAdd (c : RedisCmd) : Bool :=
  match c with
  | RedisCmd.sAddCmd _ _ => true
  | _ => false

/-- Is the command a primary-record removal (`DEL`)? -/
def isPrimaryDelete (c : RedisCmd) : Bool :=
  match c with
  | RedisCmd.delCmd _ => true
  | _ => false

/-- Is the command an index removal (`SREM`)? -/
def isIndexRemove (c : RedisCmd) : Bool :=
  match c with
  | RedisCmd.sRemCmd _ _ => true
  | _ => false

/-! ### Lemmas about the Redis model -/

theorem listGet_listSet {α : Type} (l : List (String × α)) (k : String)
    (v : α) (k2 : String) :
    listGet (listSet l k v) k2 = if k2 = k then some v else listGet l k2 := by
  induction l with
  | nil =>
      simp only [listSet, listGet]
      rcases eq_or_ne k2 k with rfl | h
      · simp
      · simp [h, Ne.symm h]
  | cons hd tl ih =>
      obtain ⟨k3, v3⟩ := hd
      simp only [listSet]
      rcases eq_or_ne k3 k with rfl | h3
      · simp only [if_pos rfl, listGet]
        rcases eq_or_ne k2 k3 with rfl | h2
        · simp
        · simp [h2, Ne.symm h2]
      · simp only [if_neg h3, listGet]
        rcases eq_or_ne k2 k3 with rfl | h2
        · simp [h3]
        · simp [Ne.symm h2, ih]

theorem listGet_listDel {α : Type} (l : List (String × α)) (k k2 : String) :
    listGet (listDel l k) k2 = if k2 = k then none else listGet l k2 := by
  induction l with
  | nil => simp [listGet, listDel]
  | cons hd tl ih =>
      obtain ⟨k3, v3⟩ := hd
      rcases eq_or_ne k3 k with rfl | h3
      · rcases eq_or_ne k2 k3 with rfl | h2
        · simpa [listGet, listDel] using ih
        · simpa [listGet, listDel, h2, Ne.symm h2] using ih
      · rcases eq_or_ne k2 k3 with rfl | h2
        · simp [listGet, listDel, h3, Ne.symm h3]
        · simpa [listGet, listDel, h3, Ne.symm h2] using ih

theorem map_fst_listSet_of_isSome {α : Type} (l : List (String × α))
    (k : String) (v : α) (h : (listGet l k).isSome) :
    (listSet l k v).map Prod.fst = l.map Prod.fst := by
  induction l with
  | nil => simp [listGet] at h
  | cons hd tl ih =>
      obtain ⟨k3, v3⟩ := hd
      rcases eq_or_ne k3 k with h3 | h3
      · subst h3; simp [listSet]
      · have h' : (listGet tl k).isSome := by
          simpa [listGet, h3] using h
        simp [listSet, h3, ih h']

theorem listGet_isSome_iff_mem {α : Type} (l : List (String × α))
    (k : String) :
    (listGet l k).isSome = true ↔ k ∈ l.map Prod.fst := by
  induction l with
  | nil => simp [listGet]
  | cons hd tl ih =>
      obtain ⟨k3, v3⟩ := hd
      rcases eq_or_ne k3 k with h3 | h3
      · subst h3; simp [listGet]
      · simp [listGet, h3, ih, Ne.symm h3]

theorem sMembers_sAdd (idx : List (String × List String)) (k x k2 : String) :
    sMembers (sAdd idx k x) k2 =
      if k2 = k then
        (if x ∈ sMembers idx k then sMembers idx k else sMembers idx k ++ [x])
      else sMembers idx k2 := by
  rcases eq_or_ne k2 k with h | h
  · subst h; simp [sMembers, sAdd, listGet_listSet]
  · simp [sMembers, sAdd, listGet_listSet, h]

theorem mem_sMembers_sAdd_self (idx : List (String × List String))
    (k x : String) : x ∈ sMembers (sAdd idx k x) k := by
  rw [sMembers_sAdd]
  by_cases h : x ∈ sMembers idx k <;> simp [h]

theorem mem_sMembers_sAdd_of_mem (idx : List (String × List String))
    (k x k2 y : String) (h : y ∈ sMembers idx k2) :
    y ∈ sMembers (sAdd idx k x) k2 := by
  rw [sMembers_sAdd]
  rcases eq_or_ne k2 k with rfl | hk
  · by_cases hx : x ∈ sMembers idx k2
    · simpa [hx] using h
    · simp [hx]
      exact Or.inl h
  · simp [hk, h]

theorem sMembers_sRem (idx : List (String × List String)) (k x k2 : String) :
    sMembers (sRem idx k x) k2 =
      if k2 = k then (sMembers idx k).filter (fun y => y ≠ x)
      else sMembers idx k2 := by
  rcases eq_or_ne k2 k with h | h
  · subst h; simp [sMembers, sRem, listGet_listSet]
  · simp [sMembers, sRem, listGet_listSet, h]

theorem not_mem_sMembers_sRem_self (idx : List (String × List String))
    (k x : String) : x ∉ sMembers (sRem idx k x) k := by
  rw [sMembers_sRem]
  simp

/-- The payments component written by `create`. -/
theorem create_payments (st : RedisState) (m : StoredPaymentMetadata) :
    (create st m).payments = listSet st.payments (getPaymentKey m.id) m := by
  unfold create
  cases indexKeyOf m <;> rfl

/-- The index component written by `create`. -/
theorem create_index (st : RedisState) (m : StoredPaymentMetadata) :
    (create st m).index =
      match indexKeyOf m with
      | some ik => sAdd st.index ik m.id
      | none => st.index := by
  unfold create
  cases indexKeyOf m <;> rfl

/-- A record just created is found under its id. -/
theorem findById_create_self (st : RedisState) (m : StoredPaymentMetadata) :
    findById (create st m) m.id = some m := by
  unfold findById
  rw [create_payments, listGet_listSet]
  simp

/-- `getPaymentKey` is injective: equal keys come from equal ids. -/
theorem getPaymentKey_injective (a b : String)
    (h : getPaymentKey a = getPaymentKey b) : a = b := by
  unfold getPaymentKey at h
  have hd : ("payment:" ++ a).data = ("payment:" ++ b).data :=
    congrArg String.data h
  rw [String.data_append, String.data_append] at hd
  have hdata : a.data = b.data := List.append_cancel_left hd
  cases a; cases b; exact congrArg String.mk hdata

/-- `delete` on an absent id is a no-op reporting failure. -/
theorem delete_of_none (st : RedisState) (id : String)
    (h : findById st id = none) : delete st id = (st, false) := by
  unfold delete
  rw [h]

/-- `delete` on a present id reports success. -/
theorem delete_snd_of_some (st : RedisState) (id : String)
    (m : StoredPaymentMetadata) (h : findById st id = some m) :
    (delete st id).2 = true := by
  cases hik : indexKeyOf m <;> simp [delete, h, hik]

/-- The payments component after a successful `delete`. -/
theorem delete_payments_of_some (st : RedisState) (id : String)
    (m : StoredPaymentMetadata) (h : findById st id = some m) :
    (delete st id).1.payments = listDel st.payments (getPaymentKey id) := by
  cases hik : indexKeyOf m <;> simp [delete, h, hik]

/-- The index component after a successful `delete`. -/
theorem delete_index_of_some (st : RedisState) (id : String)
    (m : StoredPaymentMetadata) (h : findById st id = some m) :
    (delete st id).1.index =
      match indexKeyOf m with
      | some ik => sRem st.index ik id
      | none => st.index := by
  cases hik : indexKeyOf m <;> simp [delete, h, hik]

/-- A truthy RSS pair yields the corresponding index key. -/
theorem indexKeyOf_eq_some (m : StoredPaymentMetadata) (p g : String)
    (hp : m.podcastGuid = some p) (hg : m.rssItemGuid = some g)
    (hpe : p.isEmpty = false) (hge : g.isEmpty = false) :
    indexKeyOf m = some (getRSSIndexKey p g) := by
  simp [indexKeyOf, hp, hg, hpe, hge]

/-- `update` of an existing id succeeds and overwrites the payments entry. -/
theorem update_of_some (st : RedisState) (m m0 : StoredPaymentMetadata)
    (h : findById st m.id = some m0) :
    update st m =
      ({ st with payments := listSet st.payments (getPaymentKey m.id) m },
       true) := by
  unfold update
  rw [h]

/-- `update` never touches the index component. -/
theorem update_index (st : RedisState) (m : StoredPaymentMetadata) :
    (update st m).1.index = st.index := by
  unfold update
  cases findById st m.id <;> rfl

/-! ### Token-independence lemmas for the read paths -/

/-- Changing a stored token does not touch the index. -/
theorem setStoredToken_index (st : RedisState) (id tok : String) :
    (setStoredToken st id tok).index = st.index := by
  unfold setStoredToken
  cases listGet st.payments (getPaymentKey id) <;> rfl

/-- Changing a stored token preserves the key enumeration. -/
theorem setStoredToken_map_fst (st : RedisState) (id tok : String) :
    (setStoredToken st id tok).payments.map Prod.fst =
      st.payments.map Prod.fst := by
  unfold setStoredToken
  cases h : listGet st.payments (getPaymentKey id) with
  | none => rfl
  | some m => exact map_fst_listSet_of_isSome _ _ _ (by simp [h])

/-- Lookups after a token change agree up to the public projection. -/
theorem listGet_setStoredToken_map_toPublic (st : RedisState)
    (id tok k : String) :
    (listGet (setStoredToken st id tok).payments k).map toPublic =
      (listGet st.payments k).map toPublic := by
  unfold setStoredToken
  cases h : listGet st.payments (getPaymentKey id) with
  | none => rfl
  | some m =>
      simp only
      rw [listGet_listSet]
      rcases eq_or_ne k (getPaymentKey id) with rfl | hk
      · rw [h]
        simp [toPublic]
      · rw [if_neg hk]

/-- `findByRSSItem` results after a token change agree up to the public
projection. -/
theorem findByRSSItem_setStoredToken_map_toPublic (st : RedisState)
    (id tok p g : String) :
    (findByRSSItem (setStoredToken st id tok) p g).map toPublic =
      (findByRSSItem st p g).map toPublic := by
  unfold findByRSSItem
  rw [setStoredToken_index, List.map_filterMap, List.map_filterMap]
  apply List.filterMap_congr
  intro y _
  exact listGet_setStoredToken_map_toPublic st id tok (getPaymentKey y)

/-- `findAll` results after a token change agree up to the public
projection. -/
theorem findAll_setStoredToken_map_toPublic (st : RedisState)
    (id tok : String) (limit offset : Nat) :
    (findAll (setStoredToken st id tok) limit offset).map toPublic =
      (findAll st limit offset).map toPublic := by
  unfold findAll
  rw [setStoredToken_map_fst, List.map_filterMap, List.map_filterMap]
  apply List.filterMap_congr
  intro k _
  exact listGet_setStoredToken_map_toPublic st id tok k

/-- The index written by `create` for an indexed record. -/
theorem create_index_of_some (st : RedisState) (m : StoredPaymentMetadata)
    (ik : String) (h : indexKeyOf m = some ik) :
    (create st m).index = sAdd st.index ik m.id := by
  simp [create, h]

/-- `create` of an unindexed record leaves the index untouched. -/
theorem create_index_of_none (st : RedisState) (m : StoredPaymentMetadata)
    (h : indexKeyOf m = none) : (create st m).index = st.index := by
  simp [create, h]

/-- The index after a successful `delete` of an indexed record. -/
theorem delete_index_of_some_some (st : RedisState) (id : String)
    (m : StoredPaymentMetadata) (ik : String)
    (hf : findById st id = some m) (hik : indexKeyOf m = some ik) :
    (delete st id).1.index = sRem st.index ik id := by
  rw [delete_index_of_some st id m hf, hik]

/-! ### Concrete inputs used by the witnesses -/

/-- A concrete record carrying the RSS pair ("p1", "e1"). -/
def wrIndexed : StoredPaymentMetadata :=
  { id := "a1", type := PaymentType.bitcoinLightning,
    metadata := JsonObject.nil, signature := none,
    podcastGuid := some "p1", rssItemGuid := some "e1",
    updateToken := "t1" }

/-- A concrete record with `podcastGuid` missing. -/
def wrNoPair : StoredPaymentMetadata :=
  { id := "a2", type := PaymentType.monero,
    metadata := JsonObject.nil, signature := none,
    podcastGuid := none, rssItemGuid := some "e2",
    updateToken := "t2" }

/-- A concrete record with the same id as `wrIndexed` but a different RSS
pair. -/
def wrMoved : StoredPaymentMetadata :=
  { id := "a1", type := PaymentType.bitcoinLightning,
    metadata := JsonObject.nil, signature := none,
    podcastGuid := some "p2", rssItemGuid := some "e2",
    updateToken := "t1" }

/-- A concrete record with the same id as `wrIndexed` and no RSS pair. -/
def wrBare : StoredPaymentMetadata :=
  { id := "a1", type := PaymentType.monero,
    metadata := JsonObject.nil, signature := none,
    podcastGuid := none, rssItemGuid := none,
    updateToken := "t2" }

/-- A concrete one-record store holding `wrIndexed`. -/
def wSt : RedisState := create RedisState.empty wrIndexed

/-! ### Claim theorems -/

/-- Claim C1 (index consistency): a record created with both `podcastGuid`
and `rssItemGuid` present and non-empty has its id in the index bucket keyed
by that pair immediately after `create`, so `findByRSSItem` on that pair
includes the record; immediately after a successful `delete` of a state
storing that record, the id is no longer in the bucket; and `create` of a
record missing either field (or carrying an empty one) changes no index
bucket at all. -/
theorem claim1_index_consistency (st st2 : RedisState)
    (r r2 : StoredPaymentMetadata) (p g : String)
    (hp : r.podcastGuid = some p) (hg : r.rssItemGuid = some g)
    (hpe : p.isEmpty = false) (hge : g.isEmpty = false)
    (hst2 : findById st2 r.id = some r)
    (hr2 : indexKeyOf r2 = none) :
    r.id ∈ sMembers (create st r).index (getRSSIndexKey p g) ∧
    r ∈ findByRSSItem (create st r) p g ∧
    (delete st2 r.id).2 = true ∧
    r.id ∉ sMembers (delete st2 r.id).1.index (getRSSIndexKey p g) ∧
    (create st r2).index = st.index := by
  have hik : indexKeyOf r = some (getRSSIndexKey p g) :=
    indexKeyOf_eq_some r p g hp hg hpe hge
  have hmem : r.id ∈ sMembers (create st r).index (getRSSIndexKey p g) := by
    rw [create_index_of_some st r _ hik]
    exact mem_sMembers_sAdd_self st.index _ r.id
  refine ⟨hmem, ?_, delete_snd_of_some st2 r.id r hst2, ?_, ?_⟩
  · exact List.mem_filterMap.mpr ⟨r.id, hmem, findById_create_self st r⟩
  · rw [delete_index_of_some_some st2 r.id r _ hst2 hik]
    exact not_mem_sMembers_sRem_self st2.index _ r.id
  · exact create_index_of_none st r2 hr2

/-- Witness for C1 at a concrete store, record, and unindexed record. -/
theorem claim1_witness :
    wrIndexed.id ∈ sMembers (create RedisState.empty wrIndexed).index
        (getRSSIndexKey "p1" "e1") ∧
    wrIndexed ∈ findByRSSItem (create RedisState.empty wrIndexed) "p1" "e1" ∧
    (delete wSt wrIndexed.id).2 = true ∧
    wrIndexed.id ∉ sMembers (delete wSt wrIndexed.id).1.index
        (getRSSIndexKey "p1" "e1") ∧
    (create RedisState.empty wrNoPair).index = RedisState.empty.index :=
  claim1_index_consistency RedisState.empty wSt wrIndexed wrNoPair "p1" "e1"
    rfl rfl (by decide) (by decide) (by decide) (by decide)

/-- The payments component written by `createJPT`. -/
theorem createJPT_payments (st : RedisStateJPT) (m : StoredPaymentJPT) :
    (createJPT st m).payments =
      listSet st.payments (getPaymentKey m.id) m := by
  unfold createJPT
  cases indexKeyOfJPT m <;> rfl

/-- A jpt-generation record just created is found under its id. -/
theorem findByIdJPT_create_self (st : RedisStateJPT)
    (m : StoredPaymentJPT) : findByIdJPT (createJPT st m) m.id = some m := by
  unfold findByIdJPT
  rw [createJPT_payments, listGet_listSet]
  simp

/-- A concrete valid create input that carries a `metadata` object and a
`signature` alongside the required `jpt`. -/
def cBody : CreateBody :=
  { jpt := Json.str "hdr.pay.sig", type := PaymentType.bitcoinLightning,
    podcastGuid := some "p1", rssItemGuid := some "e1",
    metadata := some (JsonObject.cons "payment_hash" (Json.str "abc")
      JsonObject.nil),
    signature := some "sig1" }

/-- Counterexample to C3 as stated: the in-src `handlePost` persists
`{ id, jpt, type, updateToken, podcastGuid, rssItemGuid }` and drops the
input's `metadata` and `signature`, so for the concrete input `cBody` the
record `findById` returns after creation exists but its `metadata` and
`signature` do not equal the input's (which are present). -/
theorem claim3_counterexample :
    (findByIdJPT (handlePostCore RedisStateJPT.empty cBody "a1" "t1").1
        (handlePostCore RedisStateJPT.empty cBody "a1" "t1").2.id).isSome =
      true ∧
    cBody.metadata ≠ none ∧
    cBody.signature ≠ none ∧
    ¬((findByIdJPT (handlePostCore RedisStateJPT.empty cBody "a1" "t1").1
        (handlePostCore RedisStateJPT.empty cBody "a1" "t1").2.id).map
          StoredPaymentJPT.metadata = some cBody.metadata) ∧
    ¬((findByIdJPT (handlePostCore RedisStateJPT.empty cBody "a1" "t1").1
        (handlePostCore RedisStateJPT.empty cBody "a1" "t1").2.id).map
          StoredPaymentJPT.signature = some cBody.signature) := by
  decide

/-- Claim C3 amended (round-trip): after the in-src `handlePost` creates a
record, `findById` of the id returned in the response yields a stored
record whose `type`, `jpt`, `podcastGuid` and `rssItemGuid` equal the
input's and whose minted `updateToken` is stored; the input's `metadata`
and `signature` are not persisted (the stored record carries neither
key). -/
theorem claim3_round_trip (st : RedisStateJPT) (body : CreateBody)
    (id tok : String) :
    ∃ m : StoredPaymentJPT,
      findByIdJPT (handlePostCore st body id tok).1
          (handlePostCore st body id tok).2.id = some m ∧
      m.type = body.type ∧ m.jpt = body.jpt ∧
      m.podcastGuid = body.podcastGuid ∧
      m.rssItemGuid = body.rssItemGuid ∧
      m.updateToken = tok ∧
      m.metadata = none ∧ m.signature = none := by
  refine ⟨{ id := id, jpt := body.jpt, type := body.type,
            updateToken := tok, podcastGuid := body.podcastGuid,
            rssItemGuid := body.rssItemGuid,
            metadata := none, signature := none },
          ?_, rfl, rfl, rfl, rfl, rfl, rfl, rfl⟩
  exact findByIdJPT_create_self st _

/-- Claim C8 (delete terminal state): after a successful `delete(id)`,
`findById(id)` reports not-found and a second `delete(id)` reports not-found
leaving the state unchanged; `delete` of an absent id reports not-found
without modifying the store or index. -/
theorem claim8_delete_terminal (st st' st2 : RedisState) (id id2 : String)
    (h : delete st id = (st', true)) (h2 : findById st2 id2 = none) :
    findById st' id = none ∧
    delete st' id = (st', false) ∧
    delete st2 id2 = (st2, false) := by
  cases hf : findById st id with
  | none =>
      rw [delete_of_none st id hf] at h
      simp at h
  | some m =>
      have hst' : (delete st id).1 = st' := by rw [h]
      have hpay : st'.payments = listDel st.payments (getPaymentKey id) := by
        rw [← hst']
        exact delete_payments_of_some st id m hf
      have hnone : findById st' id = none := by
        unfold findById
        rw [hpay, listGet_listDel]
        simp
      exact ⟨hnone, delete_of_none st' id hnone, delete_of_none st2 id2 h2⟩

/-- Witness for C8 at a concrete store and ids. -/
theorem claim8_witness :
    findById (delete wSt "a1").1 "a1" = none ∧
    delete (delete wSt "a1").1 "a1" = ((delete wSt "a1").1, false) ∧
    delete RedisState.empty "zz" = (RedisState.empty, false) :=
  claim8_delete_terminal wSt (delete wSt "a1").1 RedisState.empty
    "a1" "zz" (by decide) (by decide)

/-- Claim C9 (implicit; store-level `update` does not enforce index-key
immutability): for any stored record `r` and any replacement `r2` with the
same id, `storage.update r2` succeeds, stores `r2` verbatim (whatever
`podcastGuid`/`rssItemGuid` it carries), and touches no index bucket, so
every bucket's membership (in particular the bucket holding the id under the
old pair) is unchanged. -/
theorem claim9_update_no_index_guard (st : RedisState)
    (r r2 : StoredPaymentMetadata) (h : findById st r2.id = some r) :
    (update st r2).2 = true ∧
    findById (update st r2).1 r2.id = some r2 ∧
    (update st r2).1.index = st.index ∧
    (∀ k, sMembers (update st r2).1.index k = sMembers st.index k) := by
  have hu := update_of_some st r2 r h
  refine ⟨by rw [hu], ?_, update_index st r2, ?_⟩
  · unfold findById
    rw [hu]
    simp only
    rw [listGet_listSet]
    simp
  · intro k
    rw [update_index st r2]

/-- Witness for C9: a replacement record carrying a different RSS pair is
stored verbatim while the index still holds the id under the old pair. -/
theorem claim9_witness :
    (update wSt wrMoved).2 = true ∧
    findById (update wSt wrMoved).1 wrMoved.id = some wrMoved ∧
    (update wSt wrMoved).1.index = wSt.index ∧
    sMembers (update wSt wrMoved).1.index (getRSSIndexKey "p1" "e1") =
      sMembers wSt.index (getRSSIndexKey "p1" "e1") := by
  have h := claim9_update_no_index_guard wSt wrIndexed wrMoved (by decide)
  exact ⟨h.1, h.2.1, h.2.2.1, h.2.2.2 (getRSSIndexKey "p1" "e1")⟩

/-- Claim C10 (implicit; silent overwrite on id collision): `create` of a
record whose id already exists silently overwrites the prior record and
reports success; the prior record's index entry is not cleaned up, so the id
stays in the old bucket and `findByRSSItem` on the old pair returns the new
record even though it does not carry that pair. -/
theorem claim10_silent_overwrite (st : RedisState)
    (r0 r1 : StoredPaymentMetadata) (p g : String)
    (h0 : findById st r1.id = some r0)
    (hmem : r1.id ∈ sMembers st.index (getRSSIndexKey p g))
    (hpair : ¬(r1.podcastGuid = some p ∧ r1.rssItemGuid = some g)) :
    findById (create st r1) r1.id = some r1 ∧
    r1.id ∈ sMembers (create st r1).index (getRSSIndexKey p g) ∧
    r1 ∈ findByRSSItem (create st r1) p g ∧
    ¬(r1.podcastGuid = some p ∧ r1.rssItemGuid = some g) := by
  have hmem2 : r1.id ∈ sMembers (create st r1).index (getRSSIndexKey p g) := by
    cases hik : indexKeyOf r1 with
    | none => rw [create_index_of_none st r1 hik]; exact hmem
    | some ik =>
        rw [create_index_of_some st r1 ik hik]
        exact mem_sMembers_sAdd_of_mem st.index ik r1.id _ r1.id hmem
  refine ⟨findById_create_self st r1, hmem2, ?_, hpair⟩
  exact List.mem_filterMap.mpr ⟨r1.id, hmem2, findById_create_self st r1⟩

/-- Witness for C10: create an indexed record, then create a second record
with the same id and no pair; the old bucket still serves the new record. -/
theorem claim10_witness :
    findById (create wSt wrBare) wrBare.id = some wrBare ∧
    wrBare.id ∈ sMembers (create wSt wrBare).index
        (getRSSIndexKey "p1" "e1") ∧
    wrBare ∈ findByRSSItem (create wSt wrBare) "p1" "e1" ∧
    ¬(wrBare.podcastGuid = some "p1" ∧ wrBare.rssItemGuid = some "e1") :=
  claim10_silent_overwrite wSt wrIndexed wrBare "p1" "e1" (by decide)
    (by decide) (by decide)

/-- Characterization of a successful `handlePut`: the target record existed,
the query token validated against it, the stored record afterwards is the
replacement built from the body with the fresh token and the carried-over
RSS pair, the index is untouched, and the response returns the fresh
token. -/
theorem handlePutCore_success (st st' : RedisState)
    (body : PaymentMetadataUpdate) (qt nt : String)
    (resp : PaymentMetadataResponse)
    (h : handlePutCore st body qt nt = (st', some resp)) :
    ∃ ex, findById st body.id = some ex ∧
      validateUpdateToken st body.id qt = true ∧
      findById st' body.id = some
        { id := body.id, type := body.type, metadata := body.metadata,
          signature := body.signature, updateToken := nt,
          podcastGuid := ex.podcastGuid, rssItemGuid := ex.rssItemGuid } ∧
      st'.index = st.index ∧
      resp = { id := body.id, updateToken := nt } := by
  cases hf : findById st body.id with
  | none => simp [handlePutCore, hf] at h
  | some ex =>
      cases hv : validateUpdateToken st body.id qt with
      | false => simp [handlePutCore, hf, hv] at h
      | true =>
          have h' : ((update st
              ({ id := body.id, type := body.type, metadata := body.metadata,
                 signature := body.signature, updateToken := nt,
                 podcastGuid := ex.podcastGuid,
                 rssItemGuid := ex.rssItemGuid } :
                StoredPaymentMetadata)).1,
              (some { id := body.id, updateToken := nt } :
                Option PaymentMetadataResponse)) = (st', some resp) := by
            rw [← h]
            simp [handlePutCore, hf, hv]
          have hst' : (update st
              ({ id := body.id, type := body.type, metadata := body.metadata,
                 signature := body.signature, updateToken := nt,
                 podcastGuid := ex.podcastGuid,
                 rssItemGuid := ex.rssItemGuid } :
                StoredPaymentMetadata)).1 = st' := congrArg Prod.fst h'
          have hresp : (some { id := body.id, updateToken := nt } :
              Option PaymentMetadataResponse) = some resp :=
            congrArg Prod.snd h'
          refine ⟨ex, rfl, rfl, ?_, ?_, ?_⟩
          · rw [← hst']
            rw [update_of_some st _ ex hf]
            unfold findById
            simp only
            rw [listGet_listSet]
            simp
          · rw [← hst']
            exact update_index st _
          · exact (Option.some.inj hresp).symm

/-- Claim C2 (token rotation): after a successful `handlePut` with live
token `qt` and fresh token `nt` (fresh: distinct from the old one), the old
token no longer validates, the new one does, and exactly one token value
validates for the record. -/
theorem claim2_token_rotation (st st' : RedisState)
    (body : PaymentMetadataUpdate) (qt nt : String)
    (resp : PaymentMetadataResponse)
    (h : handlePutCore st body qt nt = (st', some resp))
    (hfresh : nt ≠ qt) :
    validateUpdateToken st' body.id qt = false ∧
    validateUpdateToken st' body.id nt = true ∧
    (∀ t, validateUpdateToken st' body.id t = true ↔ t = nt) := by
  obtain ⟨ex, hf, hv, hfu, hidx, hresp⟩ :=
    handlePutCore_success st st' body qt nt resp h
  have hval : ∀ t, validateUpdateToken st' body.id t = (nt == t) := by
    intro t
    unfold validateUpdateToken
    rw [hfu]
  refine ⟨?_, ?_, ?_⟩
  · rw [hval qt]
    exact beq_eq_false_iff_ne.mpr hfresh
  · rw [hval nt]
    exact beq_self_eq_true nt
  · intro t
    rw [hval t, beq_iff_eq]
    exact eq_comm

/-- Claim C5 (index immutability under update): a successful `handlePut`
changes no index bucket's membership, and the stored record's
`podcastGuid`/`rssItemGuid` afterwards equal the prior record's; moreover
the storage-level `update` never touches the index component. -/
theorem claim5_index_immutable_update (st st' st2 : RedisState)
    (body : PaymentMetadataUpdate) (qt nt : String)
    (resp : PaymentMetadataResponse) (ex m2 : StoredPaymentMetadata)
    (h : handlePutCore st body qt nt = (st', some resp))
    (hex : findById st body.id = some ex) :
    st'.index = st.index ∧
    (∀ k, sMembers st'.index k = sMembers st.index k) ∧
    (findById st' body.id).map StoredPaymentMetadata.podcastGuid =
      some ex.podcastGuid ∧
    (findById st' body.id).map StoredPaymentMetadata.rssItemGuid =
      some ex.rssItemGuid ∧
    (update st2 m2).1.index = st2.index := by
  obtain ⟨ex', hf, hv, hfu, hidx, hresp⟩ :=
    handlePutCore_success st st' body qt nt resp h
  have hee : ex' = ex := Option.some.inj (hf.symm.trans hex)
  subst hee
  refine ⟨hidx, fun k => by rw [hidx], ?_, ?_, update_index st2 m2⟩
  · rw [hfu]
    rfl
  · rw [hfu]
    rfl

/-- A concrete update body targeting `wrIndexed`. -/
def wBody : PaymentMetadataUpdate :=
  { id := "a1", updateToken := "t1", type := PaymentType.bitcoinLightning,
    metadata := JsonObject.nil, signature := none }

/-- The concrete store after a successful `handlePut` of `wBody` against
`wSt` with fresh token "t9". -/
def wSt2 : RedisState := (handlePutCore wSt wBody "t1" "t9").1

/-- Witness for C2 at a concrete successful update. -/
theorem claim2_witness :
    validateUpdateToken wSt2 wBody.id "t1" = false ∧
    validateUpdateToken wSt2 wBody.id "t9" = true ∧
    (validateUpdateToken wSt2 wBody.id "t1" = true ↔ "t1" = "t9") := by
  have h := claim2_token_rotation wSt wSt2 wBody "t1" "t9"
    { id := "a1", updateToken := "t9" } (by decide) (by decide)
  exact ⟨h.1, h.2.1, h.2.2 "t1"⟩

/-- Witness for C5 at a concrete successful update. -/
theorem claim5_witness :
    wSt2.index = wSt.index ∧
    sMembers wSt2.index (getRSSIndexKey "p1" "e1") =
      sMembers wSt.index (getRSSIndexKey "p1" "e1") ∧
    (findById wSt2 wBody.id).map StoredPaymentMetadata.podcastGuid =
      some wrIndexed.podcastGuid ∧
    (findById wSt2 wBody.id).map StoredPaymentMetadata.rssItemGuid =
      some wrIndexed.rssItemGuid ∧
    (update wSt wrMoved).1.index = wSt.index := by
  have h := claim5_index_immutable_update wSt wSt2 wSt wBody "t1" "t9"
    { id := "a1", updateToken := "t9" } wrIndexed wrMoved (by decide)
    (by decide)
  exact ⟨h.1, h.2.1 (getRSSIndexKey "p1" "e1"), h.2.2.1, h.2.2.2.1,
    h.2.2.2.2⟩

/-- The total count is unchanged by a stored-token change. -/
theorem getTotalCount_setStoredToken (st : RedisState) (id tok : String) :
    getTotalCount (setStoredToken st id tok) = getTotalCount st := by
  unfold getTotalCount
  rw [setStoredToken_map_fst]

/-- A list is empty exactly when its length is zero, as a Bool equation. -/
theorem isEmpty_eq_decide_length {α : Type} (l : List α) :
    l.isEmpty = decide (l.length = 0) := by
  cases l <;> simp

/-- Claim C4 (updateToken confidentiality): the response bodies of all three
read paths (GET by id, `findByRSSItem`, the paginated list) are unchanged
when a record's stored `updateToken` is replaced by any other value — the
token never influences, and hence never appears in, any read response. -/
theorem claim4_token_confidential (st : RedisState)
    (id tok qid p g : String) (limit offset : Nat) :
    getByIdResponse (setStoredToken st id tok) qid =
      getByIdResponse st qid ∧
    findByRSSItemResponse (setStoredToken st id tok) p g =
      findByRSSItemResponse st p g ∧
    listResponse (setStoredToken st id tok) limit offset =
      listResponse st limit offset := by
  refine ⟨?_, ?_, ?_⟩
  · unfold getByIdResponse findById
    exact listGet_setStoredToken_map_toPublic st id tok (getPaymentKey qid)
  · have hm := findByRSSItem_setStoredToken_map_toPublic st id tok p g
    have hlen : (findByRSSItem (setStoredToken st id tok) p g).length =
        (findByRSSItem st p g).length := by
      have h2 := congrArg List.length hm
      simpa using h2
    have hie : (findByRSSItem (setStoredToken st id tok) p g).isEmpty =
        (findByRSSItem st p g).isEmpty := by
      rw [isEmpty_eq_decide_length, isEmpty_eq_decide_length, hlen]
    unfold findByRSSItemResponse
    simp only
    rw [hie]
    by_cases he : (findByRSSItem st p g).isEmpty = true
    · rw [if_pos he, if_pos he]
    · rw [if_neg he, if_neg he, hm]
  · simp only [listResponse]
    rw [findAll_setStoredToken_map_toPublic, getTotalCount_setStoredToken]

/-- Counterexample to C6 as stated: at a concrete store holding an indexed
record, `delete` succeeds but its trace performs the primary `DEL` before
the index `SREM`, not the index removal first as the claim asserts. -/
theorem claim6_counterexample :
    (delete wSt wrIndexed.id).2 = true ∧
    occursBefore isIndexRemove isPrimaryDelete
      (deleteTrace wSt wrIndexed.id) = false ∧
    occursBefore isPrimaryDelete isIndexRemove
      (deleteTrace wSt wrIndexed.id) = true := by
  decide

/-- Claim C6 amended: in `create` of an indexed record the primary write
precedes the index registration, and in `delete` of an indexed record the
primary record removal precedes the index removal. -/
theorem claim6_write_ordering (st : RedisState)
    (m mm : StoredPaymentMetadata) (id ik ik2 : String)
    (hmik : indexKeyOf m = some ik)
    (hf : findById st id = some mm) (hik : indexKeyOf mm = some ik2) :
    occursBefore isPrimaryWrite isIndexAdd (createTrace m) = true ∧
    occursBefore isPrimaryDelete isIndexRemove (deleteTrace st id) = true := by
  constructor
  · simp [createTrace, hmik, occursBefore, isPrimaryWrite, isIndexAdd]
  · simp [deleteTrace, hf, hik, occursBefore, isPrimaryDelete,
      isIndexRemove]

/-- Witness for the amended C6 at a concrete indexed record and store. -/
theorem claim6_witness :
    occursBefore isPrimaryWrite isIndexAdd (createTrace wrIndexed) = true ∧
    occursBefore isPrimaryDelete isIndexRemove (deleteTrace wSt "a1") =
      true :=
  claim6_write_ordering wSt wrIndexed wrIndexed "a1"
    (getRSSIndexKey "p1" "e1") (getRSSIndexKey "p1" "e1")
    (by decide) (by decide) (by decide)

/-- Well-formedness of the payment keyspace, maintained by the storage
operations: keys are unique, and every stored record sits under the payment
key derived from its own id. -/
def WFStore (st : RedisState) : Prop :=
  (st.payments.map Prod.fst).Nodup ∧
  ∀ q ∈ st.payments, q.1 = getPaymentKey q.2.id

/-- The ids of all stored records, in keyspace order. -/
def storedIds (st : RedisState) : List String :=
  st.payments.map (fun q => q.2.id)

/-- Writing a key either leaves the key enumeration unchanged (key present)
or appends the key (key absent). -/
theorem map_fst_listSet {α : Type} (l : List (String × α)) (k : String)
    (v : α) :
    (listSet l k v).map Prod.fst =
      if k ∈ l.map Prod.fst then l.map Prod.fst
      else l.map Prod.fst ++ [k] := by
  induction l with
  | nil => simp [listSet]
  | cons hd tl ih =>
      obtain ⟨k3, v3⟩ := hd
      rcases eq_or_ne k3 k with rfl | h3
      · simp [listSet]
      · simp [listSet, h3, Ne.symm h3, ih]
        by_cases hm : k ∈ tl.map Prod.fst <;> simp [hm, Ne.symm h3]

/-- Every entry of `listSet l k v` is an old entry or the new binding. -/
theorem mem_listSet {α : Type} (l : List (String × α)) (k : String) (v : α)
    (q : String × α) : q ∈ listSet l k v → q ∈ l ∨ q = (k, v) := by
  induction l with
  | nil =>
      intro h
      simpa [listSet] using h
  | cons hd tl ih =>
      obtain ⟨k3, v3⟩ := hd
      intro h
      rcases eq_or_ne k3 k with rfl | h3
      · simp [listSet] at h
        rcases h with h | h
        · exact Or.inr h
        · exact Or.inl (List.mem_cons_of_mem _ h)
      · simp [listSet, h3] at h
        rcases h with h | h
        · exact Or.inl (h ▸ List.mem_cons_self _ _)
        · rcases ih h with h2 | h2
          · exact Or.inl (List.mem_cons_of_mem _ h2)
          · exact Or.inr h2

/-- `listSet` preserves uniqueness of keys. -/
theorem nodup_map_fst_listSet {α : Type} (l : List (String × α))
    (k : String) (v : α) (h : (l.map Prod.fst).Nodup) :
    ((listSet l k v).map Prod.fst).Nodup := by
  rw [map_fst_listSet]
  by_cases hm : k ∈ l.map Prod.fst
  · rwa [if_pos hm]
  · rw [if_neg hm]
    rw [List.nodup_append]
    exact ⟨h, List.nodup_singleton k, by simpa using hm⟩

/-- The empty store is well-formed. -/
theorem WFStore_empty : WFStore RedisState.empty := by
  constructor
  · simp [RedisState.empty]
  · intro q hq
    simp [RedisState.empty] at hq

/-- `create` preserves well-formedness of the payment keyspace. -/
theorem WFStore_create (st : RedisState) (m : StoredPaymentMetadata)
    (h : WFStore st) : WFStore (create st m) := by
  obtain ⟨hnd, hkeys⟩ := h
  rw [WFStore, create_payments]
  constructor
  · exact nodup_map_fst_listSet st.payments _ m hnd
  · intro q hq
    rcases mem_listSet st.payments _ m q hq with h2 | h2
    · exact hkeys q h2
    · rw [h2]

/-- `update` preserves well-formedness of the payment keyspace. -/
theorem WFStore_update (st : RedisState) (m : StoredPaymentMetadata)
    (h : WFStore st) : WFStore (update st m).1 := by
  obtain ⟨hnd, hkeys⟩ := h
  unfold update
  cases findById st m.id with
  | none => exact ⟨hnd, hkeys⟩
  | some m0 =>
      constructor
      · exact nodup_map_fst_listSet st.payments _ m hnd
      · intro q hq
        rcases mem_listSet st.payments _ m q hq with h2 | h2
        · exact hkeys q h2
        · rw [h2]

/-- `delete` preserves well-formedness of the payment keyspace. -/
theorem WFStore_delete (st : RedisState) (id : String)
    (h : WFStore st) : WFStore (delete st id).1 := by
  obtain ⟨hnd, hkeys⟩ := h
  cases hf : findById st id with
  | none =>
      rw [delete_of_none st id hf]
      exact ⟨hnd, hkeys⟩
  | some m =>
      constructor
      · rw [delete_payments_of_some st id m hf]
        exact ((List.filter_sublist _).map Prod.fst).nodup hnd
      · intro q hq
        rw [delete_payments_of_some st id m hf] at hq
        exact hkeys q (List.mem_of_mem_filter hq)

/-- Claim C7 (pagination total): `findAll` returns at most `limit` records,
and `getTotalCount` equals the number of ids for which `findById` succeeds:
it is the length of the duplicate-free list `storedIds`, which contains
exactly the ids on which `findById` succeeds. -/
theorem claim7_pagination_total (st : RedisState) (limit offset : Nat)
    (hwf : WFStore st) :
    (findAll st limit offset).length ≤ limit ∧
    getTotalCount st = (storedIds st).length ∧
    (storedIds st).Nodup ∧
    (∀ id, (findById st id).isSome = true ↔ id ∈ storedIds st) := by
  obtain ⟨hnd, hkeys⟩ := hwf
  have hmapkeys : st.payments.map Prod.fst =
      (storedIds st).map getPaymentKey := by
    unfold storedIds
    rw [List.map_map]
    exact List.map_congr_left hkeys
  refine ⟨?_, ?_, ?_, ?_⟩
  · unfold findAll
    refine le_trans (List.length_filterMap_le _ _) ?_
    rw [List.length_take]
    exact min_le_left _ _
  · unfold getTotalCount storedIds
    simp
  · have hnd2 : ((storedIds st).map getPaymentKey).Nodup := hmapkeys ▸ hnd
    exact hnd2.of_map
  · intro id
    constructor
    · intro hs
      have hmem : getPaymentKey id ∈ st.payments.map Prod.fst :=
        (listGet_isSome_iff_mem st.payments (getPaymentKey id)).mp hs
      rw [hmapkeys] at hmem
      obtain ⟨i, hi, he⟩ := List.mem_map.mp hmem
      have hii : i = id := getPaymentKey_injective i id he
      exact hii ▸ hi
    · intro hin
      have hmem : getPaymentKey id ∈ (storedIds st).map getPaymentKey :=
        List.mem_map.mpr ⟨id, hin, rfl⟩
      rw [← hmapkeys] at hmem
      exact (listGet_isSome_iff_mem st.payments (getPaymentKey id)).mpr hmem

/-- Witness for C7 at a concrete well-formed store. -/
theorem claim7_witness :
    (findAll wSt 5 0).length ≤ 5 ∧
    getTotalCount wSt = (storedIds wSt).length ∧
    (storedIds wSt).Nodup ∧
    ((findById wSt "a1").isSome = true ↔ "a1" ∈ storedIds wSt) := by
  have h := claim7_pagination_total wSt 5 0 ⟨by decide, by decide⟩
  exact ⟨h.1, h.2.1, h.2.2.1, h.2.2.2 "a1"⟩

end MetaBoost
